import Mathlib

/-!
Verification development for the table-selection store and the download
filename logic of static/assets/js/htmx/htmx-download.js.

The store is the module-level Map `tableData` (line 445) together with the
per-view entries of the browser session storage.  Each operation of the
source mutates at most the entry of one view and the matching storage key,
so we embed the pair as an explicit state record and each DOM handler as a
state-to-state function.  DOM-only effects (checkbox rendering, row
reordering, button visibility) do not touch the store and are not modelled
beyond noting that the corresponding functions leave the state unchanged.
-/

/-- One value of `tableData` (source lines 458-462): the record ids known to
the view, the ids currently selected, and the all-selected flag. -/
structure TableEntry where
  allRecordIds : List String
  selectedRecordIds : List String
  allSelected : Bool
deriving DecidableEq, Repr

/-- A persisted session-storage value for a `selectedRecordIds_` key.
`good l` stands for a string that `JSON.parse` turns into an array whose
elements map under `String` to `l` (source line 472); `bad` stands for any
stored string for which that parse throws.  A stored empty string, which the
source skips at line 470 because it is falsy, is observably identical to
`bad`: either way the selection stays empty and nothing is written back. -/
inductive StoredVal where
  | good (ids : List String)
  | bad
deriving DecidableEq, Repr

/-- The in-memory `tableData` map plus the session storage. -/
structure SysState where
  tableData : String → Option TableEntry
  sessionStorage : String → Option StoredVal

/-- Storage key used by the source: the template literal
`selectedRecordIds_${viewId}` (lines 469, 493, 509, 1343). -/
def storageKey (viewId : String) : String :=
  "selectedRecordIds_" ++ viewId

/-- Overwrite the `tableData` entry of one view (`tableData.set`). -/
def setEntry (s : SysState) (viewId : String) (t : TableEntry) : SysState :=
  { s with tableData := fun w => if w = viewId then some t else s.tableData w }

/-- `sessionStorage.setItem`. -/
def setStorage (s : SysState) (k : String) (v : StoredVal) : SysState :=
  { s with sessionStorage := fun k2 => if k2 = k then some v else s.sessionStorage k2 }

/-- `sessionStorage.removeItem`. -/
def removeStorage (s : SysState) (k : String) : SysState :=
  { s with sessionStorage := fun k2 => if k2 = k then none else s.sessionStorage k2 }

/-- Recomputation of `allSelected` during rehydration, source lines 473-475:
`selected.length === all.length && all.every((id) => selected.includes(id))`. -/
def rehydrateAllSelected (sel all : List String) : Bool :=
  decide (sel.length = all.length) && decide (∀ id ∈ all, id ∈ sel)

/-- `initializeRecordIds(recordIds, viewId)`, source lines 452-484.  A falsy
`viewId` is rejected at line 453.  The entry is reset to the given ids with
the selection cleared (lines 458-462); record ids are modelled as strings,
on which the `.map(String)` of line 459 is the identity.  Only when the id
list is nonempty (line 467) is the stored selection read back: a parseable
stored value becomes the selection and `allSelected` is recomputed
(lines 472-475), a throwing parse is caught and leaves the selection empty
(lines 476-479).  Session storage is never written here. -/
def initializeRecordIds (recordIds : List String) (viewId : String) (s : SysState) : SysState :=
  if viewId = "" then s
  else if recordIds = [] then setEntry s viewId ⟨recordIds, [], false⟩
  else
    match s.sessionStorage (storageKey viewId) with
    | some (StoredVal.good l) =>
        setEntry s viewId ⟨recordIds, l, rehydrateAllSelected l recordIds⟩
    | some StoredVal.bad => setEntry s viewId ⟨recordIds, [], false⟩
    | none => setEntry s viewId ⟨recordIds, [], false⟩

/-- The mutation performed on one entry by the row-select change handler,
source lines 1333-1341: a checked box pushes the id unless already present,
an unchecked box filters it out and clears `allSelected`. -/
def rowStepEntry (t : TableEntry) (id : String) (checked : Bool) : TableEntry :=
  if checked then
    if id ∈ t.selectedRecordIds then t
    else { t with selectedRecordIds := t.selectedRecordIds ++ [id] }
  else
    { t with selectedRecordIds := t.selectedRecordIds.filter (fun x => x ≠ id),
             allSelected := false }

/-- The row-select change handler, source lines 1328-1346.  An unknown view
returns at line 1331; otherwise the entry is mutated per `rowStepEntry` and
the new selection is written to session storage (line 1343). -/
def setRowSelected (viewId id : String) (checked : Bool) (s : SysState) : SysState :=
  match s.tableData viewId with
  | none => s
  | some t =>
      setStorage (setEntry s viewId (rowStepEntry t id checked)) (storageKey viewId)
        (StoredVal.good (rowStepEntry t id checked).selectedRecordIds)

/-- `selectAll(checked, viewId)`, source lines 486-500: guards on a falsy
view id and an unknown view, then replaces the selection by a copy of
`allRecordIds` or by the empty list, sets `allSelected`, and persists. -/
def selectAll (checked : Bool) (viewId : String) (s : SysState) : SysState :=
  if viewId = "" then s
  else
    match s.tableData viewId with
    | none => s
    | some t =>
        let t2 : TableEntry :=
          { t with allSelected := checked,
                   selectedRecordIds := if checked then t.allRecordIds else [] }
        setStorage (setEntry s viewId t2) (storageKey viewId)
          (StoredVal.good t2.selectedRecordIds)

/-- `clearSelections(viewId)`, source lines 502-516: guards as `selectAll`,
empties the selection, clears `allSelected`, removes the stored entry. -/
def clearSelections (viewId : String) (s : SysState) : SysState :=
  if viewId = "" then s
  else
    match s.tableData viewId with
    | none => s
    | some t =>
        removeStorage
          (setEntry s viewId { t with selectedRecordIds := [], allSelected := false })
          (storageKey viewId)

/-- `selectedRecordIds(viewId)`, source lines 616-619. -/
def selectedRecordIds (viewId : String) (s : SysState) : List String :=
  match s.tableData viewId with
  | some t => t.selectedRecordIds
  | none => []

/-- The `allSelected` flag of a view, read off the store (false when the
view is unknown, matching every guard of the source). -/
def allSelectedOf (viewId : String) (s : SysState) : Bool :=
  match s.tableData viewId with
  | some t => t.allSelected
  | none => false

/-- The `allRecordIds` list of a view as stored. -/
def allRecordIdsOf (viewId : String) (s : SysState) : List String :=
  match s.tableData viewId with
  | some t => t.allRecordIds
  | none => []

/-- `processInfiniteScrollRows(viewId, $newRows)`, source lines 596-608:
after its guards it only sets checkbox DOM state and reorders rows; it never
writes `tableData` or session storage, so on the store it is the identity. -/
def processInfiniteScrollRows (_viewId : String) (s : SysState) : SysState :=
  s

/-- One user-level store operation of the selection layer: a row checkbox
change, the select-all checkbox, or the clear-selection button
(source lines 1328-1357). -/
inductive SelOp where
  | row (id : String) (checked : Bool)
  | selAll (checked : Bool)
  | clearOp
deriving DecidableEq, Repr

/-- Dispatch one operation against a view. -/
def applyOp (viewId : String) (s : SysState) : SelOp → SysState
  | SelOp.row id c => setRowSelected viewId id c s
  | SelOp.selAll c => selectAll c viewId s
  | SelOp.clearOp => clearSelections viewId s

/-- Apply a sequence of operations in order. -/
def applyOps (viewId : String) (s : SysState) (ops : List SelOp) : SysState :=
  ops.foldl (applyOp viewId) s

/-- Apply a sequence of row-select handler invocations (id, checked). -/
def applyRowSelects (viewId : String) (s : SysState) (ops : List (String × Bool)) : SysState :=
  ops.foldl (fun st p => setRowSelected viewId p.1 p.2 st) s

/-- The last checked flag a sequence of row-select calls assigns to an id,
if the sequence touches the id at all. -/
def lastMark : List (String × Bool) → String → Option Bool
  | [], _ => none
  | p :: rest, id =>
      match lastMark rest id with
      | some b => some b
      | none => if p.1 = id then some p.2 else none

/-- A browsing context with an empty `tableData` map (line 445) and empty
session storage. -/
def emptyState : SysState :=
  { tableData := fun _ => none, sessionStorage := fun _ => none }

/-- Storage/in-memory synchronisation invariant of a view: the entry exists,
its id list is the one the view was initialised with, and the stored value
is the serialised selection, or is absent or unparseable with the selection
empty. Every reachable state of an initialised view satisfies it. -/
def InvC2 (viewId : String) (ids : List String) (s : SysState) : Prop :=
  ∃ t, s.tableData viewId = some t ∧ t.allRecordIds = ids ∧
    (s.sessionStorage (storageKey viewId) = some (StoredVal.good t.selectedRecordIds)
     ∨ (s.sessionStorage (storageKey viewId) = none ∧ t.selectedRecordIds = [])
     ∨ (s.sessionStorage (storageKey viewId) = some StoredVal.bad ∧ t.selectedRecordIds = []))

/-- An operation that does not select record id 4, neither individually nor
via the select-all checkbox. -/
def avoidsSelectingFour (op : SelOp) : Prop :=
  op ≠ SelOp.row "4" true ∧ op ≠ SelOp.selAll true

/-- The selection list of a view holds no duplicate ids. -/
def selNodupAt (viewId : String) (s : SysState) : Prop :=
  ∀ t, s.tableData viewId = some t → t.selectedRecordIds.Nodup

/-- View v1 freshly initialised with record ids 1, 2, 3 in an empty browsing
context. -/
def initV1 : SysState :=
  initializeRecordIds ["1", "2", "3"] "v1" emptyState

/-- State of view v1 after the user has checked rows 1, 2 and 3 one by one. -/
def c2MidState : SysState :=
  applyOps "v1" initV1 [SelOp.row "1" true, SelOp.row "2" true, SelOp.row "3" true]

/-- State of view v1 after the user has checked row 2 only. -/
def c2SelTwoState : SysState :=
  applyOps "v1" initV1 [SelOp.row "2" true]

/-- View v1 after select-all. -/
def c3s1 : SysState :=
  selectAll true "v1" initV1

/-- View v1 after select-all and a subsequent full re-render whose container
carries the grown id list 1, 2, 3, 4 (the non-sentinel branch of the
htmx:afterSwap handler, source lines 1460-1470, re-reads the data-record-ids
attribute and re-initialises the view). -/
def c3s2 : SysState :=
  initializeRecordIds ["1", "2", "3", "4"] "v1" c3s1

/-- A browsing context whose session storage carries the serialisation of an
empty selection for view v1 while no view is initialised yet. -/
def c1CexState : SysState :=
  { tableData := fun _ => none,
    sessionStorage := fun k => if k = storageKey "v1" then some (StoredVal.good []) else none }

/-- A browsing context whose session storage carries an unparseable value
for view v1. -/
def c8State : SysState :=
  { tableData := fun _ => none,
    sessionStorage := fun k => if k = storageKey "v1" then some StoredVal.bad else none }

/-- The double-quote character. -/
def quoteChar : Char := Char.ofNat 34

/-- The apostrophe character. -/
def aposChar : Char := Char.ofNat 39

/-- The newline character, the only character the regex dot and the negated
classes of the filename pattern treat specially. -/
def newlineChar : Char := Char.ofNat 10

/-- Lazy body of the first regex alternative: the shortest run of
non-newline characters ending just before the next occurrence of the
opening quote `q`; fails when a newline or the end of input comes first. -/
def lazyQuoted (q : Char) : List Char → Option (List Char)
  | [] => none
  | c :: rest =>
      if c = q then some []
      else if c = newlineChar then none
      else (lazyQuoted q rest).map (fun cs => c :: cs)

/-- Capture group 1 of the source regex (line 56)
starting at the character after the equals sign: either a quoted body
including its quotes, or the greedy run of characters other than semicolon
and newline. -/
def groupMatch (l : List Char) : List Char :=
  match l with
  | [] => []
  | c :: rest =>
      if c = quoteChar ∨ c = aposChar then
        match lazyQuoted c rest with
        | some content => c :: (content ++ [c])
        | none => l.takeWhile (fun x => !(x == Char.ofNat 59 || x == newlineChar))
      else l.takeWhile (fun x => !(x == Char.ofNat 59 || x == newlineChar))

/-- Attempt of the filename regex at the start of the character list:
the literal `filename`, then characters other than semicolon, equals and
newline, then an equals sign, then the capture group. -/
def matchFrom (l : List Char) : Option (List Char) :=
  if l.take 8 = "filename".data then
    match (l.drop 8).dropWhile
        (fun c => !(c == Char.ofNat 59 || c == Char.ofNat 61 || c == newlineChar)) with
    | c :: rest3 => if c = Char.ofNat 61 then some (groupMatch rest3) else none
    | [] => none
  else none

/-- Leftmost match of the filename regex: JavaScript `String.match` scans
start positions from the left and returns the first success. -/
def findFilenameGroup : List Char → Option (List Char)
  | [] => none
  | c :: rest =>
      match matchFrom (c :: rest) with
      | some g => some g
      | none => findFilenameGroup rest

/-- The `replace` of source line 58 with the global pattern matching single
and double quotes: every such character is removed, wherever it occurs. -/
def stripQuotes (l : List Char) : List Char :=
  l.filter (fun c => !(c == aposChar || c == quoteChar))

/-- The marker of the extended encoded form: the characters of `UTF-8`
followed by two apostrophes, as tested at source line 60. -/
def utf8Marker : List Char :=
  "UTF-8".data ++ [aposChar, aposChar]

/-- Numeric value of a hexadecimal digit. -/
def hexVal (c : Char) : Option Nat :=
  if Char.ofNat 48 ≤ c ∧ c ≤ Char.ofNat 57 then some (c.toNat - 48)
  else if Char.ofNat 65 ≤ c ∧ c ≤ Char.ofNat 70 then some (c.toNat - 55)
  else if Char.ofNat 97 ≤ c ∧ c ≤ Char.ofNat 102 then some (c.toNat - 87)
  else none

/-- First phase of the builtin decodeURIComponent: each percent escape
becomes a byte, any other character passes through, and a malformed escape
makes the builtin throw, modelled as `none`. -/
def uriTokens : List Char → Option (List (Nat ⊕ Char))
  | [] => some []
  | c :: rest =>
      if c = Char.ofNat 37 then
        match rest with
        | a :: b :: rest2 =>
            match hexVal a, hexVal b with
            | some x, some y => (uriTokens rest2).map (fun ts => Sum.inl (16 * x + y) :: ts)
            | _, _ => none
        | _ => none
      else (uriTokens rest).map (fun ts => Sum.inr c :: ts)

/-- A UTF-8 continuation byte. -/
def contByte (b : Nat) : Bool :=
  decide (128 ≤ b ∧ b < 192)

/-- Second phase of the builtin decodeURIComponent: runs of escape bytes are
decoded as UTF-8 (invalid sequences make the builtin throw, modelled as
`none`), other characters pass through. -/
def utf8Detok : List (Nat ⊕ Char) → Option (List Char)
  | [] => some []
  | Sum.inr c :: rest => (utf8Detok rest).map (fun cs => c :: cs)
  | Sum.inl b :: rest =>
      if b < 128 then (utf8Detok rest).map (fun cs => Char.ofNat b :: cs)
      else if 194 ≤ b ∧ b ≤ 223 then
        match rest with
        | Sum.inl b2 :: rest2 =>
            if contByte b2 then
              (utf8Detok rest2).map (fun cs => Char.ofNat ((b - 192) * 64 + (b2 - 128)) :: cs)
            else none
        | _ => none
      else if 224 ≤ b ∧ b ≤ 239 then
        match rest with
        | Sum.inl b2 :: Sum.inl b3 :: rest2 =>
            if contByte b2 && contByte b3 then
              let cp := (b - 224) * 4096 + (b2 - 128) * 64 + (b3 - 128)
              if 2048 ≤ cp ∧ ¬ (55296 ≤ cp ∧ cp ≤ 57343) then
                (utf8Detok rest2).map (fun cs => Char.ofNat cp :: cs)
              else none
            else none
        | _ => none
      else if 240 ≤ b ∧ b ≤ 244 then
        match rest with
        | Sum.inl b2 :: Sum.inl b3 :: Sum.inl b4 :: rest2 =>
            if contByte b2 && contByte b3 && contByte b4 then
              let cp := (b - 240) * 262144 + (b2 - 128) * 4096 + (b3 - 128) * 64 + (b4 - 128)
              if 65536 ≤ cp ∧ cp ≤ 1114111 then
                (utf8Detok rest2).map (fun cs => Char.ofNat cp :: cs)
              else none
            else none
        | _ => none
      else none

/-- Model of the browser builtin decodeURIComponent: percent-decode then
UTF-8 decode, `none` when the builtin would throw a URIError. -/
def decodeURIComponent (s : String) : Option String :=
  (uriTokens s.data).bind (fun ts => (utf8Detok ts).map String.mk)

/-- The filename computation of the download extension, source lines 54-63:
default `download`; the first capture group of the regex, if nonempty
(JavaScript tests `filenameMatch[1]` for truthiness), with all quote
characters removed; and if the result still begins with the extended-form
marker, the percent-decoded remainder (`none` models an uncaught URIError
thrown by decodeURIComponent). -/
def parseFilename (contentDisposition : String) : Option String :=
  match findFilenameGroup contentDisposition.data with
  | none => some "download"
  | some g =>
      if g = [] then some "download"
      else
        let f := stripQuotes g
        if f.take utf8Marker.length = utf8Marker then
          decodeURIComponent (String.mk (f.drop utf8Marker.length))
        else some (String.mk f)

/-- A response header carrying the extended encoded filename form:
the text `attachment; filename*=UTF-8` followed by two apostrophes and
`report%20final.pdf`. -/
def c9Input : String :=
  "attachment; filename*=UTF-8" ++ String.mk [aposChar, aposChar] ++ "report%20final.pdf"

/-- A response header carrying a double-quoted filename. -/
def c9QuotedInput : String :=
  "attachment; filename=" ++ String.mk [quoteChar] ++ "report.pdf" ++ String.mk [quoteChar]

theorem setEntry_tableData_self (s : SysState) (v : String) (t : TableEntry) :
    (setEntry s v t).tableData v = some t := by
  simp [setEntry]

theorem setEntry_sessionStorage (s : SysState) (v : String) (t : TableEntry) :
    (setEntry s v t).sessionStorage = s.sessionStorage := rfl

theorem setStorage_tableData (s : SysState) (k : String) (val : StoredVal) :
    (setStorage s k val).tableData = s.tableData := rfl

theorem setStorage_self (s : SysState) (k : String) (val : StoredVal) :
    (setStorage s k val).sessionStorage k = some val := by
  simp [setStorage]

theorem removeStorage_tableData (s : SysState) (k : String) :
    (removeStorage s k).tableData = s.tableData := rfl

theorem removeStorage_self (s : SysState) (k : String) :
    (removeStorage s k).sessionStorage k = none := by
  simp [removeStorage]

/-- C7: operations on a view with no entry in the store leave the whole
state (in-memory map and session storage) unchanged, and `selectedRecordIds`
answers the empty list.  Each operation returns before touching anything:
`selectAll` and `clearSelections` at their guards (lines 487-489, 503-505),
the row-select handler at line 1331. -/
theorem c7_unknown_view_noop (s : SysState) (v : String) (h : s.tableData v = none) :
    (∀ b, selectAll b v s = s) ∧ clearSelections v s = s ∧
    (∀ id b, setRowSelected v id b s = s) ∧ selectedRecordIds v s = [] := by
  refine ⟨?_, ?_, ?_, ?_⟩
  · intro b
    unfold selectAll
    split
    · rfl
    · rw [h]
  · unfold clearSelections
    split
    · rfl
    · rw [h]
  · intro id b
    unfold setRowSelected
    rw [h]
  · unfold selectedRecordIds
    rw [h]

/-- Witness for C7 at the unknown view vx of an empty browsing context. -/
theorem c7_unknown_view_noop_witness :
    emptyState.tableData "vx" = none ∧
    selectAll true "vx" emptyState = emptyState ∧
    clearSelections "vx" emptyState = emptyState ∧
    setRowSelected "vx" "1" true emptyState = emptyState ∧
    selectedRecordIds "vx" emptyState = [] :=
  ⟨rfl, (c7_unknown_view_noop emptyState "vx" rfl).1 true,
    (c7_unknown_view_noop emptyState "vx" rfl).2.1,
    (c7_unknown_view_noop emptyState "vx" rfl).2.2.1 "1" true,
    (c7_unknown_view_noop emptyState "vx" rfl).2.2.2⟩

/-- C5: on a known view, select-all with true replaces the selection by the
full id list (so `selectedRecordIds` returns exactly `allRecordIds`), sets
`allSelected`, and persists that selection; with false it empties the
selection, clears `allSelected`, and persists the empty selection.  View
identifiers are nonempty strings: `initializeRecordIds` rejects a falsy id
at line 453, so a known view always has one. -/
theorem c5_selectAll (s : SysState) (v : String) (t : TableEntry) (hv : v ≠ "")
    (h : s.tableData v = some t) :
    (selectAll true v s).tableData v = some ⟨t.allRecordIds, t.allRecordIds, true⟩ ∧
    selectedRecordIds v (selectAll true v s) = t.allRecordIds ∧
    (selectAll true v s).sessionStorage (storageKey v) = some (StoredVal.good t.allRecordIds) ∧
    (selectAll false v s).tableData v = some ⟨t.allRecordIds, [], false⟩ ∧
    selectedRecordIds v (selectAll false v s) = [] ∧
    (selectAll false v s).sessionStorage (storageKey v) = some (StoredVal.good []) := by
  simp [selectAll, selectedRecordIds, hv, h, setStorage, setEntry]

/-- Witness for C5 on the freshly initialised view v1. -/
theorem c5_selectAll_witness :
    (("v1" : String) ≠ "") ∧
    initV1.tableData "v1" = some ⟨["1", "2", "3"], [], false⟩ ∧
    selectedRecordIds "v1" (selectAll true "v1" initV1) = ["1", "2", "3"] :=
  ⟨by decide, by decide,
    ((c5_selectAll initV1 "v1" ⟨["1", "2", "3"], [], false⟩ (by decide) (by decide)).2.1)⟩

/-- C6: on a known view, `clearSelections` empties the selection, clears
`allSelected`, and removes the persisted entry, whatever the prior state
(source lines 502-516). -/
theorem c6_clearSelections (s : SysState) (v : String) (t : TableEntry) (hv : v ≠ "")
    (h : s.tableData v = some t) :
    (clearSelections v s).tableData v = some ⟨t.allRecordIds, [], false⟩ ∧
    selectedRecordIds v (clearSelections v s) = [] ∧
    allSelectedOf v (clearSelections v s) = false ∧
    (clearSelections v s).sessionStorage (storageKey v) = none := by
  simp [clearSelections, selectedRecordIds, allSelectedOf, hv, h, removeStorage, setEntry]

/-- Witness for C6: clearing view v1 after every row was selected. -/
theorem c6_clearSelections_witness :
    (("v1" : String) ≠ "") ∧
    c2MidState.tableData "v1" = some ⟨["1", "2", "3"], ["1", "2", "3"], false⟩ ∧
    selectedRecordIds "v1" (clearSelections "v1" c2MidState) = [] ∧
    (clearSelections "v1" c2MidState).sessionStorage (storageKey "v1") = none :=
  ⟨by decide, by decide,
    (c6_clearSelections c2MidState "v1" ⟨["1", "2", "3"], ["1", "2", "3"], false⟩
      (by decide) (by decide)).2.1,
    (c6_clearSelections c2MidState "v1" ⟨["1", "2", "3"], ["1", "2", "3"], false⟩
      (by decide) (by decide)).2.2.2⟩

/-- C8: when the persisted value for a view fails to parse, initialisation
still completes (the catch of lines 476-479 absorbs the throw): the entry
is the given id list with an empty selection and `allSelected` false, and
the session storage is untouched (initialisation never writes it). -/
theorem c8_malformed_storage (s : SysState) (v : String) (ids : List String) (hv : v ≠ "")
    (h : s.sessionStorage (storageKey v) = some StoredVal.bad) :
    (initializeRecordIds ids v s).tableData v = some ⟨ids, [], false⟩ ∧
    selectedRecordIds v (initializeRecordIds ids v s) = [] ∧
    allSelectedOf v (initializeRecordIds ids v s) = false ∧
    (initializeRecordIds ids v s).sessionStorage = s.sessionStorage := by
  unfold initializeRecordIds selectedRecordIds allSelectedOf
  rw [if_neg hv]
  by_cases hids : ids = []
  · rw [if_pos hids]
    simp [setEntry]
  · rw [if_neg hids, h]
    simp [setEntry]

/-- Witness for C8 on a context whose stored value for v1 is unparseable. -/
theorem c8_malformed_storage_witness :
    (("v1" : String) ≠ "") ∧
    c8State.sessionStorage (storageKey "v1") = some StoredVal.bad ∧
    (initializeRecordIds ["1", "2"] "v1" c8State).tableData "v1" =
      some ⟨["1", "2"], [], false⟩ :=
  ⟨by decide, by decide,
    (c8_malformed_storage c8State "v1" ["1", "2"] (by decide) (by decide)).1⟩

/-- C1 (amended): for a nonempty view identifier, initialisation resets the
entry to the given id list with the selection cleared, never writes session
storage, and only when the id list is nonempty rehydrates from a parseable
stored value, recomputing `allSelected` by the cardinality-and-membership
test of lines 473-475; with an empty id list, or an absent or unparseable
stored value, the selection stays empty and `allSelected` stays false. -/
theorem c1_initialize_characterization (s : SysState) (v : String) (ids : List String)
    (hv : v ≠ "") :
    (initializeRecordIds ids v s).sessionStorage = s.sessionStorage ∧
    (initializeRecordIds ids v s).tableData v = some (
      if ids = [] then ⟨ids, [], false⟩
      else
        match s.sessionStorage (storageKey v) with
        | some (StoredVal.good l) => ⟨ids, l, rehydrateAllSelected l ids⟩
        | _ => ⟨ids, [], false⟩) := by
  unfold initializeRecordIds
  rw [if_neg hv]
  by_cases hids : ids = []
  · rw [if_pos hids, if_pos hids]
    exact ⟨rfl, setEntry_tableData_self s v _⟩
  · rw [if_neg hids, if_neg hids]
    cases hst : s.sessionStorage (storageKey v) with
    | none => exact ⟨rfl, setEntry_tableData_self s v _⟩
    | some sv =>
        cases sv with
        | good l => exact ⟨rfl, setEntry_tableData_self s v _⟩
        | bad => exact ⟨rfl, setEntry_tableData_self s v _⟩

/-- C1 counterexample: with the empty id list and a stored empty selection,
the stored selection has the same cardinality as the full list and covers it
(`rehydrateAllSelected` answers true), yet the entry after initialisation
has `allSelected` false, because the rehydration step is skipped whenever
the id list is empty (the guard at line 467). -/
theorem c1_counterexample :
    (initializeRecordIds [] "v1" c1CexState).tableData "v1" = some ⟨[], [], false⟩ ∧
    c1CexState.sessionStorage (storageKey "v1") = some (StoredVal.good []) ∧
    rehydrateAllSelected [] [] = true := by
  decide

/-- Witness for C1 on view w of an empty browsing context. -/
theorem c1_initialize_characterization_witness :
    (("w" : String) ≠ "") ∧
    (initializeRecordIds ["1", "2"] "w" emptyState).sessionStorage = emptyState.sessionStorage ∧
    (initializeRecordIds ["1", "2"] "w" emptyState).tableData "w" =
      some ⟨["1", "2"], [], false⟩ :=
  ⟨by decide, (c1_initialize_characterization emptyState "w" ["1", "2"] (by decide)).1,
    ((c1_initialize_characterization emptyState "w" ["1", "2"] (by decide)).2).trans (by decide)⟩

theorem rowStepEntry_allRecordIds (t : TableEntry) (id : String) (c : Bool) :
    (rowStepEntry t id c).allRecordIds = t.allRecordIds := by
  cases c with
  | false => rfl
  | true =>
      by_cases hm : id ∈ t.selectedRecordIds
      · simp [rowStepEntry, hm]
      · simp [rowStepEntry, hm]

theorem rowStepEntry_allSelected (t : TableEntry) (id : String) (c : Bool) :
    (rowStepEntry t id c).allSelected = (c && t.allSelected) := by
  cases c with
  | false => rfl
  | true =>
      by_cases hm : id ∈ t.selectedRecordIds
      · simp [rowStepEntry, hm]
      · simp [rowStepEntry, hm]

theorem setRowSelected_known (s : SysState) (v : String) (t : TableEntry) (id : String) (c : Bool)
    (h : s.tableData v = some t) :
    (setRowSelected v id c s).tableData v = some (rowStepEntry t id c) ∧
    (setRowSelected v id c s).sessionStorage (storageKey v) =
      some (StoredVal.good (rowStepEntry t id c).selectedRecordIds) := by
  unfold setRowSelected
  rw [h]
  exact ⟨by simp [setStorage, setEntry], by simp [setStorage]⟩

theorem invC2_init (s : SysState) (v : String) (ids : List String) (hv : v ≠ "")
    (hids : ids ≠ []) : InvC2 v ids (initializeRecordIds ids v s) := by
  unfold initializeRecordIds
  rw [if_neg hv, if_neg hids]
  cases hst : s.sessionStorage (storageKey v) with
  | none => exact ⟨_, setEntry_tableData_self s v _, rfl, Or.inr (Or.inl ⟨hst, rfl⟩)⟩
  | some sv =>
      cases sv with
      | good l => exact ⟨_, setEntry_tableData_self s v _, rfl, Or.inl hst⟩
      | bad => exact ⟨_, setEntry_tableData_self s v _, rfl, Or.inr (Or.inr ⟨hst, rfl⟩)⟩

theorem invC2_step (v : String) (ids : List String) (s : SysState) (op : SelOp)
    (h : InvC2 v ids s) : InvC2 v ids (applyOp v s op) := by
  obtain ⟨t, ht, hall, hsync⟩ := h
  cases op with
  | row id c =>
      refine ⟨rowStepEntry t id c, (setRowSelected_known s v t id c ht).1,
        (rowStepEntry_allRecordIds t id c).trans hall,
        Or.inl (setRowSelected_known s v t id c ht).2⟩
  | selAll c =>
      show InvC2 v ids (selectAll c v s)
      unfold selectAll
      by_cases hv : v = ""
      · rw [if_pos hv]
        exact ⟨t, ht, hall, hsync⟩
      · rw [if_neg hv, ht]
        refine ⟨⟨t.allRecordIds, if c then t.allRecordIds else [], c⟩,
          by simp [setStorage, setEntry], hall, Or.inl (by simp [setStorage])⟩
  | clearOp =>
      show InvC2 v ids (clearSelections v s)
      unfold clearSelections
      by_cases hv : v = ""
      · rw [if_pos hv]
        exact ⟨t, ht, hall, hsync⟩
      · rw [if_neg hv, ht]
        refine ⟨⟨t.allRecordIds, [], false⟩, by simp [removeStorage, setEntry], hall,
          Or.inr (Or.inl ⟨by simp [removeStorage], rfl⟩)⟩

theorem invC2_ops (v : String) (ids : List String) :
    ∀ (ops : List SelOp) (s : SysState), InvC2 v ids s → InvC2 v ids (applyOps v s ops) := by
  intro ops
  induction ops with
  | nil => intro s h; exact h
  | cons op rest ih =>
      intro s h
      exact ih (applyOp v s op) (invC2_step v ids s op h)

theorem rehydrateAllSelected_nil (ids : List String) (h : ids ≠ []) :
    rehydrateAllSelected [] ids = false := by
  cases ids with
  | nil => exact absurd rfl h
  | cons a l => simp [rehydrateAllSelected]

theorem c2_reload_of_inv (s : SysState) (v : String) (ids : List String) (hv : v ≠ "")
    (hids : ids ≠ []) (h : InvC2 v ids s) :
    selectedRecordIds v (initializeRecordIds ids v s) = selectedRecordIds v s ∧
    allSelectedOf v (initializeRecordIds ids v s) =
      rehydrateAllSelected (selectedRecordIds v s) ids := by
  obtain ⟨t, ht, hall, hsync⟩ := h
  unfold initializeRecordIds
  rw [if_neg hv, if_neg hids]
  rcases hsync with hst | ⟨hst, hemp⟩ | ⟨hst, hemp⟩
  · rw [hst]
    simp [selectedRecordIds, allSelectedOf, setEntry, ht]
  · rw [hst]
    simp [selectedRecordIds, allSelectedOf, setEntry, ht, hemp,
      rehydrateAllSelected_nil ids hids]
  · rw [hst]
    simp [selectedRecordIds, allSelectedOf, setEntry, ht, hemp,
      rehydrateAllSelected_nil ids hids]

/-- C2 (amended): for every state of a view reachable from initialisation
with a nonempty id list by row selections, select-all and clears,
re-initialising with the same id list preserves `selectedIds` exactly, and
recomputes `allSelected` as the cardinality-and-membership test of the
persisted selection against the full list; that recomputation is the flag
of the reloaded view and need not equal the pre-reload flag (it differs
exactly when the pre-reload flag disagrees with the test, see the
counterexample). -/
theorem c2_roundtrip (v : String) (ids : List String) (s0 : SysState) (ops : List SelOp)
    (hv : v ≠ "") (hids : ids ≠ []) :
    selectedRecordIds v
        (initializeRecordIds ids v (applyOps v (initializeRecordIds ids v s0) ops)) =
      selectedRecordIds v (applyOps v (initializeRecordIds ids v s0) ops) ∧
    allSelectedOf v
        (initializeRecordIds ids v (applyOps v (initializeRecordIds ids v s0) ops)) =
      rehydrateAllSelected
        (selectedRecordIds v (applyOps v (initializeRecordIds ids v s0) ops)) ids :=
  c2_reload_of_inv _ v ids hv hids
    (invC2_ops v ids ops _ (invC2_init s0 v ids hv hids))

/-- C2 counterexample: in view v1 with ids 1, 2, 3, checking the three rows
one by one leaves `allSelected` false (the row handler never sets it), yet
after a reload with the same ids the rehydration of lines 472-475 recomputes
it as true: the round trip does not preserve the `allSelected` flag. -/
theorem c2_counterexample :
    selectedRecordIds "v1" c2MidState = ["1", "2", "3"] ∧
    allSelectedOf "v1" c2MidState = false ∧
    selectedRecordIds "v1" (initializeRecordIds ["1", "2", "3"] "v1" c2MidState) =
      ["1", "2", "3"] ∧
    allSelectedOf "v1" (initializeRecordIds ["1", "2", "3"] "v1" c2MidState) = true := by
  decide

/-- Witness for C2: the concrete scenario of the claim, view v1 with ids
1, 2, 3 and only row 2 selected; after the reload the selection is still
exactly 2 and `allSelected` is false. -/
theorem c2_roundtrip_witness :
    (("v1" : String) ≠ "") ∧ (["1", "2", "3"] : List String) ≠ [] ∧
    selectedRecordIds "v1" (initializeRecordIds ["1", "2", "3"] "v1" c2SelTwoState) =
      selectedRecordIds "v1" c2SelTwoState ∧
    selectedRecordIds "v1" c2SelTwoState = ["2"] ∧
    allSelectedOf "v1" (initializeRecordIds ["1", "2", "3"] "v1" c2SelTwoState) = false :=
  ⟨by decide, by decide,
    (c2_roundtrip "v1" ["1", "2", "3"] emptyState [SelOp.row "2" true]
      (by decide) (by decide)).1,
    by decide, by decide⟩

theorem allSelectedOf_step_false (v : String) (s : SysState) (op : SelOp)
    (hop : op ≠ SelOp.selAll true) (h : allSelectedOf v s = false) :
    allSelectedOf v (applyOp v s op) = false := by
  cases op with
  | row id c =>
      show allSelectedOf v (setRowSelected v id c s) = false
      cases ht : s.tableData v with
      | none =>
          unfold setRowSelected
          rw [ht]
          exact h
      | some t =>
          have htas : t.allSelected = false := by
            simpa [allSelectedOf, ht] using h
          simp [allSelectedOf, (setRowSelected_known s v t id c ht).1,
            rowStepEntry_allSelected, htas]
  | selAll c =>
      cases c with
      | true => exact absurd rfl hop
      | false =>
          show allSelectedOf v (selectAll false v s) = false
          unfold selectAll
          by_cases hv : v = ""
          · rw [if_pos hv]
            exact h
          · rw [if_neg hv]
            cases ht : s.tableData v with
            | none => exact h
            | some t => simp [allSelectedOf, setStorage, setEntry]
  | clearOp =>
      show allSelectedOf v (clearSelections v s) = false
      unfold clearSelections
      by_cases hv : v = ""
      · rw [if_pos hv]
        exact h
      · rw [if_neg hv]
        cases ht : s.tableData v with
        | none => exact h
        | some t => simp [allSelectedOf, removeStorage, setEntry]

theorem allSelectedOf_ops_false (v : String) :
    ∀ (ops : List SelOp) (s : SysState), allSelectedOf v s = false →
      (∀ op ∈ ops, op ≠ SelOp.selAll true) →
      allSelectedOf v (applyOps v s ops) = false := by
  intro ops
  induction ops with
  | nil => intro s h _; exact h
  | cons op rest ih =>
      intro s h hops
      exact ih (applyOp v s op)
        (allSelectedOf_step_false v s op (hops op (List.mem_cons_self op rest)) h)
        (fun o ho => hops o (List.mem_cons_of_mem op ho))

/-- C3: after select-all on view v1 with ids 1, 2, 3 the selection is
exactly 1, 2, 3 and `allSelected` is true; an infinite-scroll partial load
leaves the store untouched, and the full re-render that appends id 4
(re-initialisation via the stored id list of length 4) recomputes
`allSelected` as false; it then stays false under any sequence of
operations that does not select id 4, individually or via select-all. -/
theorem c3_selectAll_then_append :
    selectedRecordIds "v1" c3s1 = ["1", "2", "3"] ∧
    allSelectedOf "v1" c3s1 = true ∧
    processInfiniteScrollRows "v1" c3s1 = c3s1 ∧
    allRecordIdsOf "v1" c3s2 = ["1", "2", "3", "4"] ∧
    allSelectedOf "v1" c3s2 = false ∧
    selectedRecordIds "v1" c3s2 = ["1", "2", "3"] ∧
    ∀ ops : List SelOp, (∀ op ∈ ops, avoidsSelectingFour op) →
      allSelectedOf "v1" (applyOps "v1" c3s2 ops) = false := by
  refine ⟨by decide, by decide, rfl, by decide, by decide, by decide, ?_⟩
  intro ops hops
  exact allSelectedOf_ops_false "v1" ops c3s2 (by decide) (fun op hop => (hops op hop).2)

/-- Witness for C3: unselecting row 1 after the append keeps the flag
false. -/
theorem c3_selectAll_then_append_witness :
    avoidsSelectingFour (SelOp.row "1" false) ∧
    allSelectedOf "v1" (applyOps "v1" c3s2 [SelOp.row "1" false]) = false :=
  ⟨⟨by decide, by decide⟩,
    c3_selectAll_then_append.2.2.2.2.2.2 [SelOp.row "1" false]
      (by
        intro op hop
        rw [List.mem_singleton] at hop
        subst hop
        exact ⟨by decide, by decide⟩)⟩

theorem decide_mem_rowStepEntry (t : TableEntry) (id : String) (c : Bool) (id2 : String) :
    decide (id2 ∈ (rowStepEntry t id c).selectedRecordIds) =
      if id = id2 then c else decide (id2 ∈ t.selectedRecordIds) := by
  by_cases hid : id = id2
  · subst hid
    cases c with
    | false => simp [rowStepEntry, List.mem_filter]
    | true =>
        by_cases hm : id ∈ t.selectedRecordIds
        · simp [rowStepEntry, hm]
        · simp [rowStepEntry, hm]
  · have h2 : ¬ id2 = id := fun hh => hid hh.symm
    cases c with
    | false => simp [rowStepEntry, List.mem_filter, hid, h2]
    | true =>
        by_cases hm : id ∈ t.selectedRecordIds
        · simp [rowStepEntry, hm, hid]
        · simp [rowStepEntry, hm, hid, List.mem_append, h2]

theorem applyRowSelects_mem (v : String) :
    ∀ (ops : List (String × Bool)) (s : SysState) (t : TableEntry),
      s.tableData v = some t → ∀ id,
      decide (id ∈ selectedRecordIds v (applyRowSelects v s ops)) =
        (lastMark ops id).getD (decide (id ∈ t.selectedRecordIds)) := by
  intro ops
  induction ops with
  | nil =>
      intro s t ht id
      simp [applyRowSelects, lastMark, selectedRecordIds, ht]
  | cons p rest ih =>
      intro s t ht id
      have hstep := (setRowSelected_known s v t p.1 p.2 ht).1
      have hrec := ih (setRowSelected v p.1 p.2 s) (rowStepEntry t p.1 p.2) hstep id
      have hfold : applyRowSelects v s (p :: rest) =
          applyRowSelects v (setRowSelected v p.1 p.2 s) rest := rfl
      rw [hfold, hrec, decide_mem_rowStepEntry]
      cases hl : lastMark rest id with
      | some b => simp [lastMark, hl]
      | none =>
          by_cases hp : p.1 = id
          · simp [lastMark, hl, hp]
          · simp [lastMark, hl, hp]

theorem applyRowSelects_persists (v : String) :
    ∀ (ops : List (String × Bool)) (s : SysState) (t : TableEntry),
      s.tableData v = some t → ops ≠ [] →
      (applyRowSelects v s ops).sessionStorage (storageKey v) =
        some (StoredVal.good (selectedRecordIds v (applyRowSelects v s ops))) := by
  intro ops
  induction ops with
  | nil => intro s t ht hne; exact absurd rfl hne
  | cons p rest ih =>
      intro s t ht _
      have hstep := setRowSelected_known s v t p.1 p.2 ht
      by_cases hrest : rest = []
      · subst hrest
        show (setRowSelected v p.1 p.2 s).sessionStorage (storageKey v) =
          some (StoredVal.good (selectedRecordIds v (setRowSelected v p.1 p.2 s)))
        rw [hstep.2]
        simp [selectedRecordIds, hstep.1]
      · exact ih (setRowSelected v p.1 p.2 s) (rowStepEntry t p.1 p.2) hstep.1 hrest

/-- C4: on a known view, after any sequence of row-select handler calls an
id is selected exactly when its last call in the sequence checked it, and an
id the sequence never touches keeps its previous membership — so toggling an
id twice restores the original selection set; a single call with false
clears `allSelected`; each nonempty sequence leaves session storage holding
exactly the serialisation of the current selection (the handler persists on
every call, line 1343); and a single call mutates the entry by
`rowStepEntry`, which adds the id only when absent and removes it by
filtering. -/
theorem c4_setRowSelected (s : SysState) (v : String) (t : TableEntry)
    (ops : List (String × Bool)) (h : s.tableData v = some t) :
    (∀ id, decide (id ∈ selectedRecordIds v (applyRowSelects v s ops)) =
      (lastMark ops id).getD (decide (id ∈ t.selectedRecordIds))) ∧
    (ops ≠ [] → (applyRowSelects v s ops).sessionStorage (storageKey v) =
      some (StoredVal.good (selectedRecordIds v (applyRowSelects v s ops)))) ∧
    (∀ id, allSelectedOf v (setRowSelected v id false s) = false) ∧
    (∀ id c, (setRowSelected v id c s).tableData v = some (rowStepEntry t id c)) ∧
    (∀ id id2,
      decide (id2 ∈ selectedRecordIds v (applyRowSelects v s
          [(id, decide (id ∉ t.selectedRecordIds)), (id, decide (id ∈ t.selectedRecordIds))])) =
        decide (id2 ∈ t.selectedRecordIds)) := by
  refine ⟨applyRowSelects_mem v ops s t h,
    fun hne => applyRowSelects_persists v ops s t h hne,
    fun id => ?_, fun id c => (setRowSelected_known s v t id c h).1, fun id id2 => ?_⟩
  · simp [allSelectedOf, (setRowSelected_known s v t id false h).1, rowStepEntry_allSelected]
  · rw [applyRowSelects_mem v _ s t h id2]
    by_cases hp : id = id2
    · subst hp
      simp [lastMark]
    · simp [lastMark, hp]

/-- Witness for C4: checking row 2 on the freshly initialised view v1. -/
theorem c4_setRowSelected_witness :
    initV1.tableData "v1" = some ⟨["1", "2", "3"], [], false⟩ ∧
    decide ("2" ∈ selectedRecordIds "v1" (applyRowSelects "v1" initV1 [("2", true)])) =
      (lastMark [("2", true)] "2").getD
        (decide ("2" ∈ (⟨["1", "2", "3"], [], false⟩ : TableEntry).selectedRecordIds)) ∧
    selectedRecordIds "v1" (applyRowSelects "v1" initV1 [("2", true)]) = ["2"] :=
  ⟨by decide,
    (c4_setRowSelected initV1 "v1" ⟨["1", "2", "3"], [], false⟩ [("2", true)] (by decide)).1 "2",
    by decide⟩

theorem rowStepEntry_nodup (t : TableEntry) (id : String) (c : Bool)
    (h : t.selectedRecordIds.Nodup) : (rowStepEntry t id c).selectedRecordIds.Nodup := by
  cases c with
  | false => exact h.filter _
  | true =>
      by_cases hm : id ∈ t.selectedRecordIds
      · simpa [rowStepEntry, hm] using h
      · have hsel : (rowStepEntry t id true).selectedRecordIds =
            t.selectedRecordIds ++ [id] := by
          simp [rowStepEntry, hm]
        rw [hsel]
        exact List.Nodup.append h (List.nodup_singleton id)
          (fun x hx hx2 => by
            rw [List.mem_singleton] at hx2
            subst hx2
            exact hm hx)

/-- C10: whenever the selection list of a view holds no duplicates (and the
id list of the view holds none, which select-all copies), every store
operation keeps the selection duplicate-free: the row handler pushes an id
only when absent (line 1335) and removes by filtering, select-all copies
the id list or empties, clearing empties, and re-initialisation takes the
selection from a stored value (itself a previously persisted duplicate-free
selection) or leaves it empty. -/
theorem c10_selection_nodup (s : SysState) (v : String) (t : TableEntry)
    (h : s.tableData v = some t) (hall : t.allRecordIds.Nodup)
    (hsel : t.selectedRecordIds.Nodup) :
    (∀ id c, selNodupAt v (setRowSelected v id c s)) ∧
    (∀ c, selNodupAt v (selectAll c v s)) ∧
    selNodupAt v (clearSelections v s) ∧
    (∀ ids, (∀ l, s.sessionStorage (storageKey v) = some (StoredVal.good l) → l.Nodup) →
      selNodupAt v (initializeRecordIds ids v s)) := by
  refine ⟨?_, ?_, ?_, ?_⟩
  · intro id c t2 ht2
    rw [(setRowSelected_known s v t id c h).1] at ht2
    obtain rfl := Option.some.inj ht2
    exact rowStepEntry_nodup t id c hsel
  · intro c t2 ht2
    unfold selectAll at ht2
    by_cases hv : v = ""
    · rw [if_pos hv, h] at ht2
      obtain rfl := Option.some.inj ht2
      exact hsel
    · rw [if_neg hv, h] at ht2
      have hent : (setStorage (setEntry s v
          { t with allSelected := c,
                   selectedRecordIds := if c then t.allRecordIds else [] })
          (storageKey v) (StoredVal.good (if c then t.allRecordIds else []))).tableData v =
          some { t with allSelected := c,
                        selectedRecordIds := if c then t.allRecordIds else [] } := by
        simp [setStorage, setEntry]
      rw [hent] at ht2
      obtain rfl := Option.some.inj ht2
      cases c with
      | true => simpa using hall
      | false => simp
  · intro t2 ht2
    unfold clearSelections at ht2
    by_cases hv : v = ""
    · rw [if_pos hv, h] at ht2
      obtain rfl := Option.some.inj ht2
      exact hsel
    · rw [if_neg hv, h] at ht2
      have hent : (removeStorage (setEntry s v
          { t with selectedRecordIds := [], allSelected := false })
          (storageKey v)).tableData v =
          some { t with selectedRecordIds := [], allSelected := false } := by
        simp [removeStorage, setEntry]
      rw [hent] at ht2
      obtain rfl := Option.some.inj ht2
      simp
  · intro ids hst t2 ht2
    unfold initializeRecordIds at ht2
    by_cases hv : v = ""
    · rw [if_pos hv, h] at ht2
      obtain rfl := Option.some.inj ht2
      exact hsel
    · rw [if_neg hv] at ht2
      by_cases hids : ids = []
      · rw [if_pos hids, setEntry_tableData_self] at ht2
        obtain rfl := Option.some.inj ht2
        simp
      · rw [if_neg hids] at ht2
        cases hstv : s.sessionStorage (storageKey v) with
        | none =>
            rw [hstv, setEntry_tableData_self] at ht2
            obtain rfl := Option.some.inj ht2
            simp
        | some sv =>
            cases sv with
            | good l =>
                rw [hstv, setEntry_tableData_self] at ht2
                obtain rfl := Option.some.inj ht2
                exact hst l hstv
            | bad =>
                rw [hstv, setEntry_tableData_self] at ht2
                obtain rfl := Option.some.inj ht2
                simp

/-- Witness for C10: checking row 2 on the freshly initialised view v1
keeps the selection duplicate-free. -/
theorem c10_selection_nodup_witness :
    initV1.tableData "v1" = some ⟨["1", "2", "3"], [], false⟩ ∧
    (["1", "2", "3"] : List String).Nodup ∧
    selNodupAt "v1" (setRowSelected "v1" "2" true initV1) :=
  ⟨by decide, by decide,
    (c10_selection_nodup initV1 "v1" ⟨["1", "2", "3"], [], false⟩
      (by decide) (by decide) (by decide)).1 "2" true⟩

/-- C9 (code bug): for the extended encoded form the source never
percent-decodes.  Line 58 removes every quote character from the captured
value before line 60 tests whether it still begins with UTF-8 followed by
two apostrophes, a prefix the preceding removal makes impossible, so the
decode branch of line 61 is unreachable: the headers with
filename*=UTF-8(two apostrophes)report%20final.pdf yield the literal
UTF-8report%20final.pdf instead of the percent-decoded report final.pdf
that the builtin would produce.  Simple quoted filenames and the default
still behave as specified. -/
theorem c9_filename_extended_form_bug :
    parseFilename c9Input = some "UTF-8report%20final.pdf" ∧
    decodeURIComponent "report%20final.pdf" = some "report final.pdf" ∧
    parseFilename c9QuotedInput = some "report.pdf" ∧
    parseFilename "attachment" = some "download" := by
  decide
